import Mathlib

/-!
Shallow embedding of `hpo_term.py`, the HPO system-level mapper.

The program loads the Human Phenotype Ontology as an obonet/networkx
MultiDiGraph (edges run from child/subterm to parent/superterm), indexes
term names, extracts the direct children of HP:0000118 as system-level
roots, and classifies each input term by the system roots found in the
set `networkx.ancestors` returns for it.

The embedding models a graph as a list of nodes (identifier plus optional
`name` attribute) and a list of child-to-parent edges; Python dicts become
association lists with Python's assignment semantics (overwrite in place,
append when new); Python exceptions (`ValueError`, `KeyError`) become
`Except String`.
-/

/-- An obonet ontology graph, reduced to the data the program reads:
node identifiers with their optional `name` attribute, and directed
edges from child (subterm) to parent (superterm). A `MultiDiGraph` may
repeat edges, hence lists rather than sets. -/
structure HpoGraph where
  nodes : List (String × Option String)
  edges : List (String × String)

/-- Python dict assignment `d[k] = v`: overwrite the value of an existing
key in place, otherwise append a new entry at the end. -/
def dictSet (d : List (String × String)) (k v : String) : List (String × String) :=
  if d.any (fun p => p.1 == k) then
    d.map (fun p => if p.1 = k then (k, v) else p)
  else d ++ [(k, v)]

/-- Python `d.get(k)`: the stored value, or `none` when the key is absent. -/
def dictGet (d : List (String × String)) (k : String) : Option String :=
  (d.find? (fun p => p.1 == k)).map (fun p => p.2)

/-- Lower-casing of one character as Python `str.lower` acts on ASCII. -/
def pyCharLower (c : Char) : Char :=
  if 'A' ≤ c ∧ c ≤ 'Z' then Char.ofNat (c.toNat + 32) else c

/-- Python `s.lower()` (ASCII fragment, which covers HPO names and ids). -/
def pyLower (s : String) : String := String.mk (s.data.map pyCharLower)

/-- Python `s.strip()`: drop leading and trailing whitespace. -/
def pyStrip (s : String) : String :=
  String.mk (((s.data.dropWhile Char.isWhitespace).reverse.dropWhile Char.isWhitespace).reverse)

/-- Python `s.zfill(width)` on an unsigned string: left-pad with zeros. -/
def pyZfill (s : String) (width : Nat) : String :=
  if width ≤ s.length then s
  else String.mk (List.replicate (width - s.length) '0') ++ s

/-- Accumulator recursion behind `pySplitChar`. -/
def splitCharAux (sep : Char) : List Char → List Char → List (List Char)
  | [], acc => [acc.reverse]
  | c :: cs, acc =>
    if c = sep then acc.reverse :: splitCharAux sep cs []
    else splitCharAux sep cs (c :: acc)

/-- Python `s.split(sep)` for a one-character separator. -/
def pySplitChar (sep : Char) (s : String) : List String :=
  (splitCharAux sep s.data []).map String.mk

/-- Python `sep.join(parts)`. -/
def pyJoin (sep : String) : List String → String
  | [] => ""
  | [x] => x
  | x :: y :: rest => x ++ sep ++ pyJoin sep (y :: rest)

/-- Python truthiness of an optional string: `None` and `""` are falsy. -/
def pyTruthyOptStr : Option String → Bool
  | some s => !(s == "")
  | none => false

/-- Python `x or ""` on an optional string. -/
def pyOrEmpty : Option String → String
  | some s => s
  | none => ""

/-- Membership test `node in G`: the identifiers carried by the graph. -/
def nodeIds (G : HpoGraph) : List String := G.nodes.map (fun p => p.1)

/-- Attribute access `G.nodes[i].get("name")`: the name attribute of node `i`, when the node
exists and carries one. -/
def nodeAttrName (G : HpoGraph) (i : String) : Option String :=
  (G.nodes.find? (fun p => p.1 == i)).bind (fun p => p.2)

/-- The designated root identifier (`PHENOTYPIC_ABN = "HP:0000118"`). -/
def PHENOTYPIC_ABN : String := "HP:0000118"

/-- Embedding of `build_name_index`: case-insensitive index from primary term name to
identifier. A node contributes only when its name attribute is truthy
(present and non-empty); Python dict assignment makes a later node
overwrite an earlier one whose lower-cased name collides. -/
def build_name_index (G : HpoGraph) : List (String × String) :=
  G.nodes.foldl (fun acc p =>
    match p.2 with
    | some name => if name = "" then acc else dictSet acc (pyLower name) p.1
    | none => acc) []

/-- Embedding of `get_system_roots`: raise `ValueError` when HP:0000118 is absent;
otherwise collect the sources of the in-edges of HP:0000118 (its direct
children), keep those passing the `restrict_to` test — Python's
`if restrict_to and cid not in restrict_to: continue` skips filtering
entirely when `restrict_to` is `None` or an empty (falsy) set — and pair
each with `G.nodes[cid].get("name", "")`. Python iterates the `children`
set in unspecified hash order; the list fixes edge order, on which the
set-level claims do not depend. -/
def get_system_roots (G : HpoGraph) (restrict_to : Option (List String)) :
    Except String (List (String × String)) :=
  if PHENOTYPIC_ABN ∉ nodeIds G then
    Except.error "HP:0000118 not found in the ontology graph."
  else
    Except.ok (((((G.edges.filter (fun e => e.2 == PHENOTYPIC_ABN)).map
        (fun e => e.1)).dedup).filter (fun cid =>
          match restrict_to with
          | none => true
          | some l => if l.isEmpty then true else l.contains cid)).map
      (fun cid => (cid, (nodeAttrName G cid).getD "")))

/-- The regex `^HP:\d{7}$` with `re.IGNORECASE`: the prefix `HP` in either
case, a colon, then exactly seven ASCII digits. -/
def matchesHpoId (t : String) : Bool :=
  match t.data with
  | [a, b, c, d1, d2, d3, d4, d5, d6, d7] =>
    (a == 'H' || a == 'h') && (b == 'P' || b == 'p') && c == ':' &&
    d1.isDigit && d2.isDigit && d3.isDigit && d4.isDigit && d5.isDigit &&
    d6.isDigit && d7.isDigit
  | _ => false

/-- Embedding of `resolve_input_to_id`: strip the raw string; empty is unresolved; an
identifier-shaped string is normalized to `"HP:" + t.split(":")[1].zfill(7)`
without consulting the graph; anything else goes through the exact
case-insensitive name index. -/
def resolve_input_to_id (term : String) (name_to_id : List (String × String)) : Option String :=
  let t := pyStrip term
  if t = "" then none
  else if matchesHpoId t then
    some ("HP:" ++ pyZfill ((pySplitChar ':' t).getD 1 "") 7)
  else dictGet name_to_id (pyLower t)

/-- One step of predecessor closure: adjoin every edge source whose target
is already in the set. -/
def predsStep (edges : List (String × String)) (s : List String) : List String :=
  (s ++ (edges.filter (fun e => s.contains e.2)).map (fun e => e.1)).dedup

/-- Iterate `predsStep` a fixed number of times. -/
def reachToAux (edges : List (String × String)) : Nat → List String → List String
  | 0, s => s
  | n + 1, s => reachToAux edges n (predsStep edges s)

/-- Embedding of `networkx.ancestors(G, node)`: every node having a directed path TO
`node`, excluding `node` itself. A node reachable at all is reachable by a
simple path, which repeats no edge, so iterating the one-step closure
`edges.length` times reaches the fixpoint. On obonet's child-to-parent
edges this collects the SUBterms of `node`. -/
def nxAncestors (edges : List (String × String)) (node : String) : List String :=
  (reachToAux edges edges.length [node]).filter (fun u => u ≠ node)

/-- Embedding of `ancestors`: the script's wrapper — empty set when the node is absent
from the graph, otherwise `networkx.ancestors`. -/
def ancestors (G : HpoGraph) (node : String) : List String :=
  if node ∈ nodeIds G then nxAncestors G.edges node else []

/-- Lexicographic strict comparison of character lists by code point,
Python's `<` on strings. -/
def charListLt : List Char → List Char → Bool
  | [], [] => false
  | [], _ :: _ => true
  | _ :: _, [] => false
  | a :: as, b :: bs => if a < b then true else if b < a then false else charListLt as bs

/-- Python string comparison `a < b`. -/
def pyStrLt (a b : String) : Bool := charListLt a.data b.data

/-- The comparison driving `hits.sort(key=lambda x: x[1].lower())`: Python's
stable ascending sort places `a` no later than `b` exactly when the key of
`b` is not below the key of `a`. -/
def sortLe (a b : String × String) : Bool := !(pyStrLt (pyLower b.2) (pyLower a.2))

/-- Embedding of `map_term_to_systems`: empty when the node is absent; otherwise keep the
system entries whose identifier lies in the computed ancestor set or equals
the queried node, then stable-sort by lower-cased name. -/
def map_term_to_systems (G : HpoGraph) (systems : List (String × String))
    (node_id : String) : List (String × String) :=
  if node_id ∈ nodeIds G then
    (systems.filter (fun p => (ancestors G node_id).contains p.1 || p.1 == node_id)).mergeSort
      sortLe
  else []

/-- The CSV header `write_output` emits, and the exact key set of every row
dict assembled in `main`. -/
def output_fieldnames : List String :=
  ["input", "resolved_hpo_id", "resolved_hpo_name", "system_level_ids", "system_level_names"]

/-- One iteration of the result loop in `main`: resolve the raw string, fetch
`G.nodes[resolved_id]["name"]` when the resolved identifier is truthy and
present (a `KeyError` when the node carries no name attribute), classify,
and assemble the ordered output record. -/
def processRow (G : HpoGraph) (name_to_id system_roots : List (String × String))
    (raw : String) : Except String (List (String × String)) :=
  let resolved_id := resolve_input_to_id raw name_to_id
  let rid := pyOrEmpty resolved_id
  let rnameE : Except String (Option String) :=
    if pyTruthyOptStr resolved_id && (nodeIds G).contains rid then
      match nodeAttrName G rid with
      | some nm => Except.ok (some nm)
      | none => Except.error "KeyError: name"
    else Except.ok none
  match rnameE with
  | Except.error e => Except.error e
  | Except.ok resolved_name =>
    let systems := if pyTruthyOptStr resolved_id then map_term_to_systems G system_roots rid else []
    let sys_ids := if systems.isEmpty then "" else pyJoin "|" (systems.map (fun p => p.1))
    let sys_names := if systems.isEmpty then "" else pyJoin "|" (systems.map (fun p => p.2))
    Except.ok [("input", raw), ("resolved_hpo_id", pyOrEmpty resolved_id),
      ("resolved_hpo_name", pyOrEmpty resolved_name),
      ("system_level_ids", sys_ids), ("system_level_names", sys_names)]

/-- Parsing of `--restrict_ids`: `None` when the argument is falsy, else the
set of stripped, non-empty comma-separated pieces. -/
def parse_restrict (arg : String) : Option (List String) :=
  if arg = "" then none
  else some ((((pySplitChar ',' arg).map pyStrip).filter (fun x => x ≠ "")).dedup)

/-- The core of `main` once the graph is in memory: build the name index,
compute the system roots (aborting when HP:0000118 is absent), then process
every input in order; the first raised exception aborts the whole run. -/
def main_core (G : HpoGraph) (restrict : Option (List String)) (inputs : List String) :
    Except String (List (List (String × String))) :=
  match get_system_roots G restrict with
  | Except.error e => Except.error e
  | Except.ok system_roots => inputs.mapM (processRow G (build_name_index G) system_roots)

/-! ### Order facts for the sort comparison -/

theorem charListLt_irrefl (l : List Char) : charListLt l l = false := by
  induction l with
  | nil => rfl
  | cons a as ih => simp [charListLt, lt_irrefl, ih]

theorem charListLt_trans {a b c : List Char} (h1 : charListLt a b = true)
    (h2 : charListLt b c = true) : charListLt a c = true := by
  induction a generalizing b c with
  | nil =>
    cases b with
    | nil => simp [charListLt] at h1
    | cons y ys =>
      cases c with
      | nil => simp [charListLt] at h2
      | cons z zs => rfl
  | cons x xs ih =>
    cases b with
    | nil => simp [charListLt] at h1
    | cons y ys =>
      cases c with
      | nil => simp [charListLt] at h2
      | cons z zs =>
        simp only [charListLt] at h1 h2 ⊢
        have h1s : x < y ∨ (¬x < y ∧ ¬y < x ∧ charListLt xs ys = true) := by
          by_cases hxy : x < y
          · exact Or.inl hxy
          · by_cases hyx : y < x
            · rw [if_neg hxy, if_pos hyx] at h1
              exact absurd h1 (by simp)
            · rw [if_neg hxy, if_neg hyx] at h1
              exact Or.inr ⟨hxy, hyx, h1⟩
        have h2s : y < z ∨ (¬y < z ∧ ¬z < y ∧ charListLt ys zs = true) := by
          by_cases hyz : y < z
          · exact Or.inl hyz
          · by_cases hzy : z < y
            · rw [if_neg hyz, if_pos hzy] at h2
              exact absurd h2 (by simp)
            · rw [if_neg hyz, if_neg hzy] at h2
              exact Or.inr ⟨hyz, hzy, h2⟩
        rcases h1s with hxy | ⟨hxy, hyx, htail1⟩
        · rcases h2s with hyz | ⟨hyz, hzy, htail2⟩
          · simp [lt_trans hxy hyz]
          · have hyzeq : y = z := le_antisymm (not_lt.mp hzy) (not_lt.mp hyz)
            subst hyzeq
            simp [hxy]
        · have hxyeq : x = y := le_antisymm (not_lt.mp hyx) (not_lt.mp hxy)
          subst hxyeq
          rcases h2s with hyz | ⟨hyz, hzy, htail2⟩
          · simp [hyz]
          · rw [if_neg hyz, if_neg hzy]
            exact ih htail1 htail2

theorem charListLt_connex {a b : List Char} (h1 : charListLt a b = false)
    (h2 : charListLt b a = false) : a = b := by
  induction a generalizing b with
  | nil =>
    cases b with
    | nil => rfl
    | cons y ys => simp [charListLt] at h1
  | cons x xs ih =>
    cases b with
    | nil => simp [charListLt] at h2
    | cons y ys =>
      simp only [charListLt] at h1 h2
      by_cases hxy : x < y
      · simp [hxy] at h1
      · by_cases hyx : y < x
        · simp [hyx] at h2
        · have hxyeq : x = y := le_antisymm (not_lt.mp hyx) (not_lt.mp hxy)
          rw [if_neg hxy, if_neg hyx] at h1
          rw [if_neg hyx, if_neg hxy] at h2
          rw [hxyeq, ih h1 h2]

theorem sortLe_trans (a b c : String × String) (h1 : sortLe a b = true)
    (h2 : sortLe b c = true) : sortLe a c = true := by
  simp only [sortLe, pyStrLt, Bool.not_eq_true'] at h1 h2 ⊢
  by_cases hca : charListLt (pyLower c.2).data (pyLower a.2).data = true
  · by_cases hab : charListLt (pyLower a.2).data (pyLower b.2).data = true
    · exact absurd (charListLt_trans hca hab) (by simp [h2])
    · have : (pyLower a.2).data = (pyLower b.2).data :=
        charListLt_connex (by simpa using hab) h1
      rw [this] at hca
      exact absurd hca (by simp [h2])
  · simpa using hca

theorem sortLe_total (a b : String × String) : sortLe a b || sortLe b a := by
  simp only [sortLe, pyStrLt, Bool.not_eq_true']
  by_cases h1 : charListLt (pyLower b.2).data (pyLower a.2).data = true
  · by_cases h2 : charListLt (pyLower a.2).data (pyLower b.2).data = true
    · have := charListLt_trans h1 h2
      rw [charListLt_irrefl] at this
      exact absurd this (by simp)
    · simp [h2]
  · simp [h1]

theorem sortLe_of_eq_snd {a b : String × String} (h : pyLower a.2 = pyLower b.2) :
    sortLe a b = true := by
  simp only [sortLe, pyStrLt, Bool.not_eq_true', h]
  exact charListLt_irrefl _

/-! ### Dict lemmas -/

theorem find?_map_replace (d : List (String × String)) (k' v k : String) (hne : k ≠ k') :
    (d.map (fun p => if p.1 = k' then (k', v) else p)).find? (fun p => p.1 == k)
      = d.find? (fun p => p.1 == k) := by
  induction d with
  | nil => rfl
  | cons q d ih =>
    by_cases hq : q.1 = k'
    · rw [List.map_cons, if_pos hq, List.find?_cons_of_neg, List.find?_cons_of_neg, ih]
      · simp [beq_eq_false_iff_ne, hq]
        exact fun h => hne h.symm
      · simp [beq_eq_false_iff_ne]
        exact fun h => hne h.symm
    · by_cases hqk : q.1 = k
      · rw [List.map_cons, if_neg hq, List.find?_cons_of_pos, List.find?_cons_of_pos] <;>
          simp [hqk]
      · rw [List.map_cons, if_neg hq, List.find?_cons_of_neg, List.find?_cons_of_neg, ih] <;>
          simp [hqk]

theorem find?_map_replace_self (d : List (String × String)) (k' v : String)
    (hany : d.any (fun p => p.1 == k') = true) :
    (d.map (fun p => if p.1 = k' then (k', v) else p)).find? (fun p => p.1 == k')
      = some (k', v) := by
  induction d with
  | nil => simp at hany
  | cons q d ih =>
    by_cases hq : q.1 = k'
    · rw [List.map_cons, if_pos hq, List.find?_cons_of_pos]
      simp
    · have hqk : (q.1 == k') = false := by simp [beq_eq_false_iff_ne, hq]
      simp only [List.any_cons, hqk, Bool.false_or] at hany
      rw [List.map_cons, if_neg hq, List.find?_cons_of_neg, ih hany]
      simp [hqk]

theorem dictGet_dictSet (d : List (String × String)) (k' v k : String) :
    dictGet (dictSet d k' v) k = if k = k' then some v else dictGet d k := by
  by_cases hany : d.any (fun p => p.1 == k') = true
  · by_cases hk : k = k'
    · subst hk
      simp only [dictGet, dictSet, if_pos hany, find?_map_replace_self d k v hany]
      simp
    · simp only [dictGet, dictSet, if_pos hany, find?_map_replace d k' v k hk, if_neg hk]
  · have hdnone : d.find? (fun p => p.1 == k') = none := by
      rw [List.find?_eq_none]
      intro x hx
      rw [Bool.not_eq_true] at hany
      rw [List.any_eq_false] at hany
      simpa using hany x hx
    by_cases hk : k = k'
    · subst hk
      simp only [dictGet, dictSet, if_neg hany, List.find?_append, hdnone, Option.none_or]
      rw [List.find?_cons_of_pos]
      · simp
      · simp
    · have hk'k : ¬(((k', v).1 == k) = true) := by simp; exact fun h => hk h.symm
      simp only [dictGet, dictSet, if_neg hany, List.find?_append]
      rw [List.find?_cons_of_neg (p := fun q : String × String => q.1 == k) _ hk'k, List.find?_nil,
        Option.or_none, if_neg hk]

/-- The per-node contribution predicate of `build_name_index`: a truthy name
whose lower-casing equals the key. -/
def nameHits (k : String) (p : String × Option String) : Bool :=
  match p.2 with
  | some nm => !(nm == "") && (pyLower nm == k)
  | none => false

theorem build_name_index_foldl (l : List (String × Option String))
    (acc : List (String × String)) (k : String) :
    dictGet (l.foldl (fun acc p =>
      match p.2 with
      | some name => if name = "" then acc else dictSet acc (pyLower name) p.1
      | none => acc) acc) k =
    match l.reverse.find? (nameHits k) with
    | some p => some p.1
    | none => dictGet acc k := by
  induction l generalizing acc with
  | nil => simp
  | cons p l ih =>
    obtain ⟨pid, pnm⟩ := p
    rw [List.foldl_cons, ih, List.reverse_cons, List.find?_append]
    cases hfind : l.reverse.find? (nameHits k) with
    | some q => simp
    | none =>
      simp only [Option.none_or]
      cases pnm with
      | none => simp [nameHits]
      | some nm =>
        by_cases hempty : nm = ""
        · subst hempty
          simp [nameHits]
        · by_cases hkey : pyLower nm = k
          · rw [List.find?_cons_of_pos _ (by simp [nameHits, hempty, hkey])]
            show dictGet (if nm = "" then acc else dictSet acc (pyLower nm) pid) k = some pid
            rw [if_neg hempty, dictGet_dictSet, if_pos hkey.symm]
          · rw [List.find?_cons_of_neg _ (by simp [nameHits, hempty, hkey]), List.find?_nil]
            show dictGet (if nm = "" then acc else dictSet acc (pyLower nm) pid) k = dictGet acc k
            rw [if_neg hempty, dictGet_dictSet, if_neg (fun h => hkey h.symm)]

/-- Lookup in the built name index equals a backwards search over the nodes:
the last truthy-named node whose lower-cased name matches wins. -/
theorem build_name_index_lookup (G : HpoGraph) (k : String) :
    dictGet (build_name_index G) k =
      (G.nodes.reverse.find? (nameHits k)).map (fun p => p.1) := by
  rw [build_name_index, build_name_index_foldl]
  cases hfind : G.nodes.reverse.find? (nameHits k) with
  | some q => simp
  | none => simp [dictGet]

/-! ### Classification lemmas -/

theorem map_term_to_systems_eq (G : HpoGraph) (systems : List (String × String))
    (node_id : String) (h : node_id ∈ nodeIds G) :
    map_term_to_systems G systems node_id =
      (systems.filter (fun p =>
        (ancestors G node_id).contains p.1 || p.1 == node_id)).mergeSort sortLe := by
  rw [map_term_to_systems, if_pos h]

theorem mem_map_term_to_systems (G : HpoGraph) (systems : List (String × String))
    (node_id : String) (q : String × String) :
    q ∈ map_term_to_systems G systems node_id ↔
      (node_id ∈ nodeIds G ∧ q ∈ systems ∧
        ((ancestors G node_id).contains q.1 = true ∨ q.1 = node_id)) := by
  by_cases h : node_id ∈ nodeIds G
  · rw [map_term_to_systems_eq G systems node_id h, List.mem_mergeSort, List.mem_filter]
    simp only [Bool.or_eq_true, beq_iff_eq, h, true_and]
  · rw [map_term_to_systems, if_neg h]
    simp [h]

theorem dictGet_build_name_index_mem (G : HpoGraph) (k i : String)
    (h : dictGet (build_name_index G) k = some i) : i ∈ nodeIds G := by
  rw [build_name_index_lookup] at h
  cases hfind : G.nodes.reverse.find? (nameHits k) with
  | none => rw [hfind] at h; exact absurd h (by simp)
  | some q =>
    rw [hfind] at h
    simp only [Option.map_some', Option.some_inj] at h
    have hq : q ∈ G.nodes := List.mem_reverse.mp (List.mem_of_find?_eq_some hfind)
    exact h ▸ List.mem_map_of_mem (fun p => p.1) hq

/-! ### Claim C10 -/

/-- Claim C10: the name index resolves a lower-cased name to the identifier
of the LAST node in iteration order carrying a truthy name whose
lower-casing equals it (Python dict assignment overwrites), and lookup of
an absent name returns `none` rather than raising. -/
theorem c10_name_index_last_wins (G : HpoGraph) (k : String) :
    dictGet (build_name_index G) k =
      (G.nodes.reverse.find? (nameHits k)).map (fun p => p.1) ∧
    ((∀ p ∈ G.nodes, nameHits k p = false) → dictGet (build_name_index G) k = none) := by
  refine ⟨build_name_index_lookup G k, fun habsent => ?_⟩
  rw [build_name_index_lookup]
  have : G.nodes.reverse.find? (nameHits k) = none := by
    rw [List.find?_eq_none]
    intro x hx
    simp [habsent x (List.mem_reverse.mp hx)]
  rw [this]
  rfl

def gEmpty : HpoGraph := ⟨[], []⟩

/-- Claim C10 witness: looking anything up in the index of the empty graph
yields `none`. -/
theorem c10_witness : dictGet (build_name_index gEmpty) "zzz" = none :=
  (c10_name_index_last_wins gEmpty "zzz").2 (by simp [gEmpty])

/-! ### Claim C4 -/

/-- Claim C4 counterexample: an identifier-shaped input resolves without any
graph-membership check, so `"HP:9999999"` resolves to an identifier absent
from the (empty) graph. -/
theorem c4_counterexample :
    resolve_input_to_id "HP:9999999" (build_name_index gEmpty) = some "HP:9999999" ∧
    "HP:9999999" ∉ nodeIds gEmpty := by
  exact ⟨rfl, by simp [nodeIds, gEmpty]⟩

/-- Claim C4 (amended): a successful resolution either came from the
identifier pattern (in which case the graph is never consulted and the
identifier may be absent from it), or from the name index, whose values are
always node identifiers of the graph the index was built from. -/
theorem c4_resolution_membership (G : HpoGraph) (term i : String)
    (h : resolve_input_to_id term (build_name_index G) = some i) :
    matchesHpoId (pyStrip term) = true ∨ i ∈ nodeIds G := by
  simp only [resolve_input_to_id] at h
  by_cases hempty : pyStrip term = ""
  · rw [if_pos hempty] at h
    exact absurd h (by simp)
  · rw [if_neg hempty] at h
    by_cases hmatch : matchesHpoId (pyStrip term) = true
    · exact Or.inl hmatch
    · rw [if_neg hmatch] at h
      exact Or.inr (dictGet_build_name_index_mem G (pyLower (pyStrip term)) i h)

def gC4 : HpoGraph := ⟨[("HP:0001250", some "Seizure")], []⟩

/-- Claim C4 witness: resolving the exact name Seizure against a one-node
graph lands on an identifier present in that graph. -/
theorem c4_witness :
    matchesHpoId (pyStrip "seizure") = true ∨ "HP:0001250" ∈ nodeIds gC4 :=
  c4_resolution_membership gC4 "seizure" "HP:0001250" (by rfl)

/-! ### Claim C9 -/

theorem isDigit_ne_colon {c : Char} (h : c.isDigit = true) : ¬(c = ':') := by
  intro heq
  subst heq
  exact absurd h (by decide)

theorem hpPrefix_ne_colon {c x y : Char} (hx : ¬(x = ':')) (hy : ¬(y = ':'))
    (h : (c == x || c == y) = true) : ¬(c = ':') := by
  rcases Bool.or_eq_true _ _ |>.mp h with h1 | h1
  · exact (beq_iff_eq.mp h1) ▸ hx
  · exact (beq_iff_eq.mp h1) ▸ hy

/-- Claim C9: an input whose stripped form matches the identifier pattern
resolves to the canonical uppercase-prefixed form with the digit portion
(the characters after `HP:`) preserved verbatim. -/
theorem c9_id_normalization (term : String) (idx : List (String × String))
    (h : matchesHpoId (pyStrip term) = true) :
    resolve_input_to_id term idx = some ("HP:" ++ String.mk ((pyStrip term).data.drop 3)) := by
  have hm := h
  simp only [matchesHpoId] at h
  split at h
  case h_2 => exact absurd h (by simp)
  case h_1 a b c d1 d2 d3 d4 d5 d6 d7 hdata =>
    simp only [Bool.and_eq_true] at h
    obtain ⟨⟨⟨⟨⟨⟨⟨⟨⟨ha, hb⟩, hc⟩, hd1⟩, hd2⟩, hd3⟩, hd4⟩, hd5⟩, hd6⟩, hd7⟩ := h
    have hcc : c = ':' := beq_iff_eq.mp hc
    subst hcc
    have hane : ¬(a = ':') := hpPrefix_ne_colon (by decide) (by decide) ha
    have hbne : ¬(b = ':') := hpPrefix_ne_colon (by decide) (by decide) hb
    have h1ne : ¬(d1 = ':') := isDigit_ne_colon hd1
    have h2ne : ¬(d2 = ':') := isDigit_ne_colon hd2
    have h3ne : ¬(d3 = ':') := isDigit_ne_colon hd3
    have h4ne : ¬(d4 = ':') := isDigit_ne_colon hd4
    have h5ne : ¬(d5 = ':') := isDigit_ne_colon hd5
    have h6ne : ¬(d6 = ':') := isDigit_ne_colon hd6
    have h7ne : ¬(d7 = ':') := isDigit_ne_colon hd7
    have hempty : ¬(pyStrip term = "") := by
      intro he
      rw [he] at hdata
      exact absurd hdata (by simp)
    simp only [resolve_input_to_id]
    rw [if_neg hempty, if_pos hm]
    have hsplit : splitCharAux ':' [a, b, ':', d1, d2, d3, d4, d5, d6, d7] []
        = [[a, b], [d1, d2, d3, d4, d5, d6, d7]] := by
      simp [splitCharAux, hane, hbne, h1ne, h2ne, h3ne, h4ne, h5ne, h6ne, h7ne]
    rw [pySplitChar, hdata, hsplit]
    simp only [List.map_cons, List.map_nil, List.getD, List.getElem?_cons_succ,
      List.getElem?_cons_zero, Option.getD_some]
    rw [pyZfill, if_pos (by simp [String.length])]
    rfl

/-- Claim C9 witness: both casings of `hp:0001626` resolve to `HP:0001626`. -/
theorem c9_witness :
    resolve_input_to_id "hp:0001626" [] = some "HP:0001626" ∧
    resolve_input_to_id "HP:0001626" [] = some "HP:0001626" :=
  ⟨(c9_id_normalization "hp:0001626" [] (by decide)).trans (by rfl),
   (c9_id_normalization "HP:0001626" [] (by decide)).trans (by rfl)⟩

/-! ### Claim C5 -/

theorem get_system_roots_ok (G : HpoGraph) (r : Option (List String))
    (hroot : PHENOTYPIC_ABN ∈ nodeIds G) :
    get_system_roots G r = Except.ok
      (((((G.edges.filter (fun e => e.2 == PHENOTYPIC_ABN)).map
        (fun e => e.1)).dedup).filter (fun cid =>
          match r with
          | none => true
          | some l => if l.isEmpty then true else l.contains cid)).map
      (fun cid => (cid, (nodeAttrName G cid).getD ""))) := by
  rw [get_system_roots, if_neg (not_not_intro hroot)]

theorem mem_children_iff (G : HpoGraph) (i : String) :
    i ∈ (((G.edges.filter (fun e => e.2 == PHENOTYPIC_ABN)).map (fun e => e.1)).dedup) ↔
      (i, PHENOTYPIC_ABN) ∈ G.edges := by
  rw [List.mem_dedup, List.mem_map]
  constructor
  · rintro ⟨⟨e1, e2⟩, he, rfl⟩
    rw [List.mem_filter] at he
    obtain ⟨hee, h2⟩ := he
    have h2eq : e2 = PHENOTYPIC_ABN := beq_iff_eq.mp h2
    exact h2eq ▸ hee
  · intro hi
    exact ⟨(i, PHENOTYPIC_ABN), List.mem_filter.mpr ⟨hi, by simp⟩, rfl⟩

theorem keys_system_roots (children : List String) (keep : String → Bool)
    (f : String → String) :
    (((children.filter keep).map (fun cid => (cid, f cid))).map (fun p => p.1))
      = children.filter keep := by
  rw [List.map_map]
  exact List.map_id _

/-- Claim C5 (amended): with the root present, a NON-EMPTY allow-list
narrows the system roots to exactly the direct children of HP:0000118 that
it contains; but an empty allow-list (or none at all) is falsy in Python,
disables the filter, and yields ALL direct children rather than the empty
intersection. -/
theorem c5_system_roots_allowlist (G : HpoGraph) (hroot : PHENOTYPIC_ABN ∈ nodeIds G) :
    (∀ l sys, l ≠ [] → get_system_roots G (some l) = Except.ok sys →
      ∀ i, i ∈ sys.map (fun p => p.1) ↔ ((i, PHENOTYPIC_ABN) ∈ G.edges ∧ i ∈ l)) ∧
    (∀ r sys, (r = none ∨ r = some ([] : List String)) →
      get_system_roots G r = Except.ok sys →
      ∀ i, i ∈ sys.map (fun p => p.1) ↔ (i, PHENOTYPIC_ABN) ∈ G.edges) := by
  constructor
  · intro l sys hne hok i
    rw [get_system_roots_ok G (some l) hroot] at hok
    have hsys := Except.ok.inj hok
    subst hsys
    rw [keys_system_roots, List.mem_filter, mem_children_iff]
    have hle : l.isEmpty = false := List.isEmpty_eq_false.mpr hne
    simp [hle, List.elem_iff]
  · intro r sys hr hok i
    rw [get_system_roots_ok G r hroot] at hok
    have hsys := Except.ok.inj hok
    subst hsys
    rw [keys_system_roots, List.mem_filter, mem_children_iff]
    rcases hr with rfl | rfl
    · simp
    · simp

def g5 : HpoGraph :=
  ⟨[("HP:0000118", some "Phenotypic abnormality"), ("HP:0000707", some "Nervous system")],
   [("HP:0000707", "HP:0000118")]⟩

/-- Claim C5 counterexample: the argument `","` parses to the EMPTY
allow-list, yet `get_system_roots` returns the full set of direct children
of the root instead of the empty intersection the claim requires. -/
theorem c5_counterexample :
    parse_restrict "," = some [] ∧
    get_system_roots g5 (some []) = Except.ok [("HP:0000707", "Nervous system")] ∧
    ¬ get_system_roots g5 (some []) = Except.ok [] := by
  refine ⟨rfl, rfl, fun h => ?_⟩
  rw [show get_system_roots g5 (some []) =
    Except.ok [("HP:0000707", "Nervous system")] from rfl] at h
  simp at h

/-- Claim C5 witness: concrete instance of the non-empty allow-list clause. -/
theorem c5_witness :
    ("HP:0000707" ∈ ([("HP:0000707", "Nervous system")].map (fun p => p.1))) ↔
      (("HP:0000707", PHENOTYPIC_ABN) ∈ g5.edges ∧ "HP:0000707" ∈ ["HP:0000707"]) :=
  (c5_system_roots_allowlist g5 (by decide)).1 ["HP:0000707"]
    [("HP:0000707", "Nervous system")] (by decide) (by rfl) "HP:0000707"

/-! ### Claim C8 -/

/-- Claim C8 (amended): classifying a system root R always yields a list
containing (R, name recorded for R), but the list is exactly the set of
system entries whose identifier equals R or lies in the computed ancestor
set of R — so it is single-element only when no other system root can reach
R in the graph. -/
theorem c8_classify_root_itself (G : HpoGraph) (systems : List (String × String))
    (R nm : String) (hmem : (R, nm) ∈ systems) (hG : R ∈ nodeIds G) :
    (R, nm) ∈ map_term_to_systems G systems R ∧
    (∀ q, q ∈ map_term_to_systems G systems R ↔
      (q ∈ systems ∧ ((ancestors G R).contains q.1 = true ∨ q.1 = R))) := by
  constructor
  · exact (mem_map_term_to_systems G systems R (R, nm)).mpr ⟨hG, hmem, Or.inr rfl⟩
  · intro q
    rw [mem_map_term_to_systems]
    constructor
    · rintro ⟨_, hq, hc⟩
      exact ⟨hq, hc⟩
    · rintro ⟨hq, hc⟩
      exact ⟨hG, hq, hc⟩

def g8 : HpoGraph := ⟨[("HP:0000001", some "Aaa")], []⟩

/-- Claim C8 witness: a lone system root classifies to a list containing
itself. -/
theorem c8_witness :
    ("HP:0000001", "Aaa") ∈ map_term_to_systems g8 [("HP:0000001", "Aaa")] "HP:0000001" :=
  (c8_classify_root_itself g8 [("HP:0000001", "Aaa")] "HP:0000001" "Aaa"
    (by decide) (by decide)).1

def g8c : HpoGraph :=
  ⟨[("HP:0000001", some "Aaa"), ("HP:0000002", some "Bbb"),
    ("HP:0000118", some "Phenotypic abnormality")],
   [("HP:0000001", "HP:0000118"), ("HP:0000002", "HP:0000118"),
    ("HP:0000002", "HP:0000001")]⟩

/-- Claim C8 counterexample: when system root HP:0000002 is also a child of
system root HP:0000001, classifying HP:0000001 returns TWO entries, not a
single-element list. -/
theorem c8_counterexample :
    get_system_roots g8c none
      = Except.ok [("HP:0000001", "Aaa"), ("HP:0000002", "Bbb")] ∧
    map_term_to_systems g8c [("HP:0000001", "Aaa"), ("HP:0000002", "Bbb")] "HP:0000001"
      = [("HP:0000001", "Aaa"), ("HP:0000002", "Bbb")] ∧
    ([("HP:0000001", "Aaa"), ("HP:0000002", "Bbb")] : List (String × String)).length ≠ 1 := by
  refine ⟨rfl, ?_, by decide⟩
  rw [map_term_to_systems_eq g8c _ _ (by decide)]
  rw [show (([("HP:0000001", "Aaa"), ("HP:0000002", "Bbb")] : List (String × String)).filter
      (fun p => (ancestors g8c "HP:0000001").contains p.1 || p.1 == "HP:0000001"))
    = [("HP:0000001", "Aaa"), ("HP:0000002", "Bbb")] from by decide]
  exact List.mergeSort_of_sorted (by decide)

/-! ### Claim C3 -/

def g3 : HpoGraph :=
  ⟨[("HP:0000118", some "Phenotypic abnormality"), ("HP:0000002", some "Same"),
    ("HP:0000001", some "Same"), ("HP:0000003", some "X")],
   [("HP:0000002", "HP:0000118"), ("HP:0000001", "HP:0000118"),
    ("HP:0000002", "HP:0000003"), ("HP:0000001", "HP:0000003")]⟩

/-- Claim C3 counterexample: two system roots with the same name classify a
shared term in the iteration order of the system-root mapping, here with
identifiers DESCENDING, so the result is not sorted with an
identifier-ascending tie-break as the claim states. -/
theorem c3_counterexample :
    get_system_roots g3 none = Except.ok [("HP:0000002", "Same"), ("HP:0000001", "Same")] ∧
    map_term_to_systems g3 [("HP:0000002", "Same"), ("HP:0000001", "Same")] "HP:0000003"
      = [("HP:0000002", "Same"), ("HP:0000001", "Same")] ∧
    ¬ ([("HP:0000002", "Same"), ("HP:0000001", "Same")] : List (String × String)).Pairwise
        (fun a b => (pyStrLt (pyLower a.2) (pyLower b.2) ||
          (pyLower a.2 == pyLower b.2 && !(pyStrLt b.1 a.1))) = true) := by
  refine ⟨rfl, ?_, by decide⟩
  rw [map_term_to_systems_eq g3 _ _ (by decide)]
  rw [show (([("HP:0000002", "Same"), ("HP:0000001", "Same")] : List (String × String)).filter
      (fun p => (ancestors g3 "HP:0000003").contains p.1 || p.1 == "HP:0000003"))
    = [("HP:0000002", "Same"), ("HP:0000001", "Same")] from by decide]
  exact List.mergeSort_of_sorted (by decide)

/-- Claim C3 (amended): every classification result is sorted ascending by
lower-cased name, and entries whose lower-cased names are EQUAL keep the
iteration order of the system-root mapping (Python's sort is stable): there
is no identifier tie-break, so the order is not independent of that
iteration order. -/
theorem c3_sorted_by_name (G : HpoGraph) (systems : List (String × String)) (n : String) :
    (map_term_to_systems G systems n).Pairwise (fun a b => sortLe a b = true) ∧
    (∀ a b, n ∈ nodeIds G → pyLower a.2 = pyLower b.2 →
      List.Sublist [a, b] (systems.filter (fun p =>
        (ancestors G n).contains p.1 || p.1 == n)) →
      List.Sublist [a, b] (map_term_to_systems G systems n)) := by
  constructor
  · by_cases h : n ∈ nodeIds G
    · rw [map_term_to_systems_eq G systems n h]
      exact List.sorted_mergeSort sortLe_trans sortLe_total _
    · rw [map_term_to_systems, if_neg h]
      exact List.Pairwise.nil
  · intro a b hG hkey hsub
    rw [map_term_to_systems_eq G systems n hG]
    exact List.pair_sublist_mergeSort sortLe_trans sortLe_total (sortLe_of_eq_snd hkey) hsub

/-- Claim C3 witness: the stable-tie clause at the concrete two-root graph. -/
theorem c3_witness :
    List.Sublist [(("HP:0000002", "Same") : String × String), ("HP:0000001", "Same")]
      (map_term_to_systems g3 [("HP:0000002", "Same"), ("HP:0000001", "Same")] "HP:0000003") :=
  (c3_sorted_by_name g3 [("HP:0000002", "Same"), ("HP:0000001", "Same")] "HP:0000003").2
    ("HP:0000002", "Same") ("HP:0000001", "Same") (by decide) (by rfl)
    (by
      rw [show (([("HP:0000002", "Same"), ("HP:0000001", "Same")] : List (String × String)).filter
          (fun p => (ancestors g3 "HP:0000003").contains p.1 || p.1 == "HP:0000003"))
        = [("HP:0000002", "Same"), ("HP:0000001", "Same")] from by decide])

/-! ### Claim C1 -/

def gC1 : HpoGraph :=
  ⟨[("HP:0001250", some "Seizure"), ("HP:0000707", some "Nervous system"),
    ("HP:0000118", some "Phenotypic abnormality")],
   [("HP:0001250", "HP:0000707"), ("HP:0000707", "HP:0000118")]⟩

/-- Claim C1 (code bug): in the graph where Seizure HP:0001250 is a
descendant of system root HP:0000707 via child-to-parent edges, the code
classifies HP:0001250 to the EMPTY list, because `networkx.ancestors`
collects the nodes that can reach the query (its subterms), not the
superterms its own docstring promises; symmetrically, classifying the root
HP:0000118 — whose `ancestors` set the code computes as its descendants —
finds the system root. -/
theorem c1_ancestors_inverted :
    get_system_roots gC1 none = Except.ok [("HP:0000707", "Nervous system")] ∧
    ancestors gC1 "HP:0001250" = [] ∧
    map_term_to_systems gC1 [("HP:0000707", "Nervous system")] "HP:0001250" = [] ∧
    ancestors gC1 "HP:0000118" = ["HP:0001250", "HP:0000707"] ∧
    map_term_to_systems gC1 [("HP:0000707", "Nervous system")] "HP:0000118"
      = [("HP:0000707", "Nervous system")] := by
  refine ⟨rfl, by decide, ?_, by decide, ?_⟩
  · rw [map_term_to_systems_eq gC1 _ _ (by decide)]
    rw [show (([("HP:0000707", "Nervous system")] : List (String × String)).filter
        (fun p => (ancestors gC1 "HP:0001250").contains p.1 || p.1 == "HP:0001250"))
      = [] from by decide]
    exact List.mergeSort_nil
  · rw [map_term_to_systems_eq gC1 _ _ (by decide)]
    rw [show (([("HP:0000707", "Nervous system")] : List (String × String)).filter
        (fun p => (ancestors gC1 "HP:0000118").contains p.1 || p.1 == "HP:0000118"))
      = [("HP:0000707", "Nervous system")] from by decide]
    exact List.mergeSort_singleton _

/-! ### Claim C2 -/

/-- Claim C2 counterexample: the record emitted for an unresolvable input
carries the fields `resolved_hpo_id` and `resolved_hpo_name`, not the
`resolved_id` and `resolved_name` the claim names. -/
theorem c2_counterexample :
    processRow gEmpty [] [] "x" = Except.ok
      [("input", "x"), ("resolved_hpo_id", ""), ("resolved_hpo_name", ""),
       ("system_level_ids", ""), ("system_level_names", "")] ∧
    ([("input", "x"), ("resolved_hpo_id", ""), ("resolved_hpo_name", ""),
      ("system_level_ids", ""), ("system_level_names", "")].map
        (fun p => (p : String × String).1))
      ≠ ["input", "resolved_id", "resolved_name", "system_level_ids", "system_level_names"] ∧
    output_fieldnames
      ≠ ["input", "resolved_id", "resolved_name", "system_level_ids", "system_level_names"] := by
  exact ⟨rfl, by decide, by decide⟩

/-- Claim C2 (amended): every successfully emitted record has exactly the
fields `input`, `resolved_hpo_id`, `resolved_hpo_name`, `system_level_ids`,
`system_level_names`, in that order (matching the CSV header), with the
last two rendered as pipe-joined lists over the classification result and
the empty string when no value applies. -/
theorem c2_record_shape (G : HpoGraph) (idx roots : List (String × String))
    (raw : String) (row : List (String × String))
    (h : processRow G idx roots raw = Except.ok row) :
    row.map (fun p => p.1) = output_fieldnames ∧
    ∃ rnm systems, systems = (if pyTruthyOptStr (resolve_input_to_id raw idx) = true then
        map_term_to_systems G roots (pyOrEmpty (resolve_input_to_id raw idx)) else []) ∧
      row = [("input", raw),
        ("resolved_hpo_id", pyOrEmpty (resolve_input_to_id raw idx)),
        ("resolved_hpo_name", rnm),
        ("system_level_ids",
          if systems.isEmpty then "" else pyJoin "|" (systems.map (fun p => p.1))),
        ("system_level_names",
          if systems.isEmpty then "" else pyJoin "|" (systems.map (fun p => p.2)))] := by
  simp only [processRow] at h
  by_cases hguard : (pyTruthyOptStr (resolve_input_to_id raw idx)
      && (nodeIds G).contains (pyOrEmpty (resolve_input_to_id raw idx))) = true
  · rw [if_pos hguard] at h
    cases hattr : nodeAttrName G (pyOrEmpty (resolve_input_to_id raw idx)) with
    | some nm =>
      rw [hattr] at h
      have hrow := Except.ok.inj h
      subst hrow
      exact ⟨rfl, nm, _, rfl, rfl⟩
    | none =>
      rw [hattr] at h
      exact absurd h (by simp)
  · rw [if_neg hguard] at h
    have hrow := Except.ok.inj h
    subst hrow
    exact ⟨rfl, "", _, rfl, rfl⟩

/-- Claim C2 witness: the record for input `x` against the empty graph. -/
theorem c2_witness :
    ∃ row, processRow gEmpty [] [] "x" = Except.ok row ∧
      row.map (fun p => p.1) = output_fieldnames :=
  ⟨[("input", "x"), ("resolved_hpo_id", ""), ("resolved_hpo_name", ""),
    ("system_level_ids", ""), ("system_level_names", "")], rfl,
   (c2_record_shape gEmpty [] [] "x" _ (by rfl)).1⟩

/-! ### Claim C6 -/

def g6 : HpoGraph :=
  ⟨[("HP:0000118", some "Phenotypic abnormality"), ("HP:0000001", none)], []⟩

/-- Claim C6 counterexample: when the resolved node carries no name
attribute, the row raises `KeyError` instead of emitting an empty
resolved-name field. -/
theorem c6_counterexample :
    processRow g6 [] [] "HP:0000001" = Except.error "KeyError: name" ∧
    ∀ row, ¬ processRow g6 [] [] "HP:0000001" = Except.ok row := by
  refine ⟨rfl, fun row h => ?_⟩
  rw [show processRow g6 [] [] "HP:0000001"
    = Except.error "KeyError: name" from rfl] at h
  exact absurd h (by simp)

/-- Claim C6 (amended): for a resolved identifier present in the graph, the
row is emitted with the node's name in the `resolved_hpo_name` field when
the node carries a name attribute; when the node carries NO name attribute
the row raises `KeyError` and aborts instead of emitting an empty string. -/
theorem c6_resolved_name (G : HpoGraph) (idx roots : List (String × String))
    (raw rid : String) (h1 : resolve_input_to_id raw idx = some rid) (h2 : rid ≠ "")
    (h3 : (nodeIds G).contains rid = true) :
    (∀ nm, nodeAttrName G rid = some nm →
      ∃ row, processRow G idx roots raw = Except.ok row ∧
        row.getD 2 ("", "") = ("resolved_hpo_name", nm)) ∧
    (nodeAttrName G rid = none →
      processRow G idx roots raw = Except.error "KeyError: name") := by
  have hbeq : (rid == "") = false := beq_eq_false_iff_ne.mpr h2
  have hguard : (pyTruthyOptStr (resolve_input_to_id raw idx)
      && (nodeIds G).contains (pyOrEmpty (resolve_input_to_id raw idx))) = true := by
    rw [h1]
    simp only [pyTruthyOptStr, pyOrEmpty, hbeq, Bool.not_false, Bool.true_and]
    exact h3
  constructor
  · intro nm hnm
    have hrow : processRow G idx roots raw = Except.ok
        [("input", raw), ("resolved_hpo_id", rid), ("resolved_hpo_name", nm),
         ("system_level_ids", if (map_term_to_systems G roots rid).isEmpty then ""
            else pyJoin "|" ((map_term_to_systems G roots rid).map (fun p => p.1))),
         ("system_level_names", if (map_term_to_systems G roots rid).isEmpty then ""
            else pyJoin "|" ((map_term_to_systems G roots rid).map (fun p => p.2)))] := by
      simp only [processRow, h1, pyOrEmpty, pyTruthyOptStr, hbeq, Bool.not_false,
        Bool.true_and, h3, if_true, hnm]
    exact ⟨_, hrow, rfl⟩
  · intro hnone
    simp only [processRow, h1, pyOrEmpty, pyTruthyOptStr, hbeq, Bool.not_false,
      Bool.true_and, h3, if_true, hnone]

def g6b : HpoGraph := ⟨[("HP:0000001", some "Aaa")], []⟩

/-- Claim C6 witness: a named node's row carries its name. -/
theorem c6_witness :
    ∃ row, processRow g6b [] [] "HP:0000001" = Except.ok row ∧
      row.getD 2 ("", "") = ("resolved_hpo_name", "Aaa") :=
  (c6_resolved_name g6b [] [] "HP:0000001" "HP:0000001"
    (by rfl) (by decide) (by decide)).1 "Aaa" (by rfl)

/-! ### Claim C7 -/

theorem mapM_loop_ok {α β : Type} (f : α → Except String β) (l : List α) :
    ∀ acc : List β, (∀ a ∈ l, ∃ b, f a = Except.ok b) →
      ∃ bs, List.mapM.loop f l acc = Except.ok bs ∧ bs.length = l.length + acc.length := by
  induction l with
  | nil =>
    intro acc hall
    exact ⟨acc.reverse, rfl, by simp⟩
  | cons a l ih =>
    intro acc hall
    obtain ⟨b, hb⟩ := hall a (List.mem_cons_self a l)
    obtain ⟨bs, hbs, hlen⟩ := ih (b :: acc) (fun x hx => hall x (List.mem_cons_of_mem a hx))
    refine ⟨bs, ?_, ?_⟩
    · show (f a >>= fun b => List.mapM.loop f l (b :: acc)) = Except.ok bs
      rw [hb]
      exact hbs
    · rw [hlen]
      simp only [List.length_cons]
      omega

theorem processRow_ok_of_named (G : HpoGraph) (idx roots : List (String × String))
    (hnamed : ∀ p ∈ G.nodes, p.2 ≠ none) (raw : String) :
    ∃ row, processRow G idx roots raw = Except.ok row := by
  by_cases hguard : (pyTruthyOptStr (resolve_input_to_id raw idx)
      && (nodeIds G).contains (pyOrEmpty (resolve_input_to_id raw idx))) = true
  · have hmem : pyOrEmpty (resolve_input_to_id raw idx) ∈ nodeIds G := by
      have h2 := ((Bool.and_eq_true _ _).mp hguard).2
      simpa using h2
    simp only [nodeIds] at hmem
    obtain ⟨q, hq, hq1⟩ := List.mem_map.mp hmem
    have hsome : (G.nodes.find? (fun p =>
        p.1 == pyOrEmpty (resolve_input_to_id raw idx))).isSome := by
      rw [List.find?_isSome]
      exact ⟨q, hq, by simp [hq1]⟩
    obtain ⟨q', hq'⟩ := Option.isSome_iff_exists.mp hsome
    have hq'2 := hnamed q' (List.mem_of_find?_eq_some hq')
    cases hq'2nm : q'.2 with
    | none => exact absurd hq'2nm hq'2
    | some nm =>
      have hattr : nodeAttrName G (pyOrEmpty (resolve_input_to_id raw idx)) = some nm := by
        simp only [nodeAttrName]
        rw [hq']
        simp [hq'2nm]
      cases hE : processRow G idx roots raw with
      | ok row => exact ⟨row, rfl⟩
      | error msg =>
        exfalso
        simp only [processRow] at hE
        rw [if_pos hguard, hattr] at hE
        simp at hE
  · cases hE : processRow G idx roots raw with
    | ok row => exact ⟨row, rfl⟩
    | error msg =>
      exfalso
      simp only [processRow] at hE
      rw [if_neg hguard] at hE
      simp at hE

/-- Claim C7 (amended): the run aborts with the root-not-found error exactly
when HP:0000118 is absent, before any input is consulted; with the root
present, the only other abort is the missing-name `KeyError`, so on a graph
whose nodes all carry a name attribute every input yields exactly one row. -/
theorem c7_abort_conditions (G : HpoGraph) (r : Option (List String)) (inputs : List String) :
    (PHENOTYPIC_ABN ∉ nodeIds G →
      main_core G r inputs = Except.error "HP:0000118 not found in the ontology graph.") ∧
    (PHENOTYPIC_ABN ∈ nodeIds G → (∀ p ∈ G.nodes, p.2 ≠ none) →
      ∃ rows, main_core G r inputs = Except.ok rows ∧ rows.length = inputs.length) := by
  constructor
  · intro habs
    simp only [main_core, get_system_roots]
    rw [if_pos habs]
  · intro hroot hnamed
    obtain ⟨rows, hrows, hlen⟩ :=
      mapM_loop_ok (processRow G (build_name_index G)
        (((((G.edges.filter (fun e => e.2 == PHENOTYPIC_ABN)).map
          (fun e => e.1)).dedup).filter (fun cid =>
            match r with
            | none => true
            | some l => if l.isEmpty then true else l.contains cid)).map
          (fun cid => (cid, (nodeAttrName G cid).getD "")))) inputs []
        (fun raw _ => processRow_ok_of_named G _ _ hnamed raw)
    refine ⟨rows, ?_, by simpa using hlen⟩
    simp only [main_core]
    rw [get_system_roots_ok G r hroot]
    exact hrows

/-- Claim C7 counterexample: with the root present but a resolved node
lacking a name attribute, the run still aborts — the root check is not the
only run-aborting condition. -/
theorem c7_counterexample :
    PHENOTYPIC_ABN ∈ nodeIds g6 ∧
    main_core g6 none ["HP:0000001"] = Except.error "KeyError: name" := by
  exact ⟨by decide, rfl⟩

/-- Claim C7 witness: on a fully named graph with the root present, three
inputs give exactly three rows. -/
theorem c7_witness :
    ∃ rows, main_core g5 none ["nervous system", "HP:0000707", ""] = Except.ok rows ∧
      rows.length = 3 :=
  (c7_abort_conditions g5 none ["nervous system", "HP:0000707", ""]).2
    (by decide) (by decide)
